import Mathlib

/-!
Shallow embedding of the recruit-platform server (src/src/index.mjs and
src/src/db.mjs) for the claims about the candidate pipeline, the review
handler, candidate creation/deletion, and the persistence shim.

JavaScript objects become Lean structures; nullable row columns become
Option fields; `x ?? y` becomes `Option.getD`; `x || y` on strings becomes
an emptiness test (the only falsy string is ""); machine time (nowIso) and
generated ids (rid) are passed in as explicit parameters; file and network
IO is modelled as explicit state (a `World` holding the local JSON document
and the remote tables) or, for failure-ordering claims, as an action trace
driven by a failure environment.
-/

namespace Recruit

/-! ## Constants (src/src/index.mjs lines 43-74) -/

/-- STATUS_COLS keys: the fixed ordered candidate pipeline stages. -/
def STATUS_COLS : List String :=
  ["待筛选", "简历初筛", "待一面", "一面通过", "待二面", "二面通过",
   "待三面", "三面通过", "待四面", "四面通过", "待五面", "五面通过",
   "待发offer", "Offer发放", "入职", "淘汰"]

/-- STATUS_SET.has — membership in the enumerated stage strings. -/
def STATUS_SET (s : String) : Bool := STATUS_COLS.contains s

def INTERVIEW_ROUNDS : List Int := [1, 2, 3, 4, 5]

def INTERVIEW_RATING : List String := ["S", "A", "B+", "B", "B-", "C"]

/-- REVIEW_DIMENSIONS (key, display name); descriptions are irrelevant here. -/
def REVIEW_DIMENSIONS : List (String × String) :=
  [("tech", "技术能力"), ("comm", "沟通表达"), ("logic", "逻辑思维"),
   ("learn", "学习能力"), ("culture", "文化匹配")]

/-- Position of a stage in the pipeline order (length of STATUS_COLS when
absent); used to state what "a stage past another stage" means. -/
def stageIdx (s : String) : Nat := List.findIdx (fun t => t == s) STATUS_COLS

/-! ## Data model (in-memory camelCase shapes) -/

structure Follow where
  nextAction : String
  followAt : String
  note : String
deriving Repr, DecidableEq

structure Candidate where
  id : String
  name : String
  phone : String
  email : String
  jobId : String
  jobTitle : String
  source : String
  note : String
  status : String
  tags : List String
  follow : Follow
  createdAt : String
  updatedAt : String
deriving Repr, DecidableEq

structure Job where
  id : String
  title : String
  department : String
  location : String
  owner : String
  headcount : Option Int
  level : String
  state : String
  category : String
  jd : String
  createdAt : String
  updatedAt : String
deriving Repr, DecidableEq

/-- Interview review record.  The records written by the reviews route carry
`interviewer` and `dimensions`; the rows read back from the remote store do
not (interviewToRow drops them), in which case they are "" and []. -/
structure Interview where
  id : String
  candidateId : String
  round : Int
  status : String
  rating : String
  interviewer : String
  dimensions : List (String × Nat)
  pros : String
  cons : String
  focusNext : String
  note : String
  createdAt : String
deriving Repr, DecidableEq

structure Schedule where
  id : String
  candidateId : String
  round : Int
  scheduledAt : String
  interviewers : String
  link : String
  location : String
  createdAt : String
  updatedAt : String
deriving Repr, DecidableEq

structure ResumeFile where
  id : String
  candidateId : String
  filename : String
  originalName : String
  contentType : String
  size : Nat
  uploadedAt : String
  url : String
  storage : String
  bucket : String
deriving Repr, DecidableEq

structure Event where
  id : String
  candidateId : String
  type : String
  message : String
  actor : String
  createdAt : String
deriving Repr, DecidableEq

structure Offer where
  id : String
  candidateId : String
  jobId : String
  salary : String
  salaryNote : String
  startDate : String
  offerStatus : String
  note : String
  createdAt : String
  updatedAt : String
deriving Repr, DecidableEq

structure User where
  id : String
  openId : String
  unionId : String
  name : String
  avatar : String
  role : String
  department : String
  jobTitle : String
  provider : String
  createdAt : String
deriving Repr, DecidableEq

/-- The full shaped dataset (the in-memory document). -/
structure Data where
  jobs : List Job
  candidates : List Candidate
  sources : List String
  interviews : List Interview
  interviewSchedules : List Schedule
  resumeFiles : List ResumeFile
  events : List Event
  offers : List Offer
  tags : List String
  users : List User
deriving Repr, DecidableEq

/-- A parsed JSON document before shaping: any collection may be absent
(not an array), in which case ensureDataShape fills the default. -/
structure RawData where
  jobs : Option (List Job)
  candidates : Option (List Candidate)
  sources : Option (List String)
  interviews : Option (List Interview)
  interviewSchedules : Option (List Schedule)
  resumeFiles : Option (List ResumeFile)
  events : Option (List Event)
  offers : Option (List Offer)
  tags : Option (List String)
  users : Option (List User)
deriving Repr, DecidableEq

/-- The document `{}` — a file that is missing or failed to parse. -/
def RawData.empty : RawData :=
  { jobs := none, candidates := none, sources := none, interviews := none,
    interviewSchedules := none, resumeFiles := none, events := none,
    offers := none, tags := none, users := none }

/-- ensureDataShape (src/src/db.mjs lines 22-36): default every missing
collection; records already present are passed through untouched. -/
def ensureDataShape (d : RawData) : Data :=
  { jobs := d.jobs.getD [],
    candidates := d.candidates.getD [],
    sources := d.sources.getD ["官网投递", "内推", "Boss直聘", "猎头", "飞书表单", "手动录入"],
    interviews := d.interviews.getD [],
    interviewSchedules := d.interviewSchedules.getD [],
    resumeFiles := d.resumeFiles.getD [],
    events := d.events.getD [],
    offers := d.offers.getD [],
    tags := d.tags.getD ["高潜", "紧急", "待定", "优秀", "内推优先", "已拒绝其他Offer"],
    users := d.users.getD [] }

/-- View of a shaped dataset as a parsed document (what saveDataLocal
serializes: every collection is present). -/
def Data.toRaw (d : Data) : RawData :=
  { jobs := some d.jobs, candidates := some d.candidates, sources := some d.sources,
    interviews := some d.interviews, interviewSchedules := some d.interviewSchedules,
    resumeFiles := some d.resumeFiles, events := some d.events, offers := some d.offers,
    tags := some d.tags, users := some d.users }

/-- loadDataLocal (src/src/db.mjs lines 39-49).  `file` is the parsed
content of data.json (`none` when the file is missing or unparsable, in
which case the initial shape is returned and written back).  On serverless
deployments the file is never read. -/
def loadDataLocal (isServerless : Bool) (file : Option RawData) : Data :=
  if isServerless then ensureDataShape RawData.empty
  else
    match file with
    | some raw => ensureDataShape raw
    | none => ensureDataShape RawData.empty

/-! ## Generic list helpers mirroring the JS idioms -/

/-- Array.prototype.findIndex, as an Option-returning index. -/
def findIndex (p : α → Bool) : List α → Option Nat
  | [] => none
  | x :: xs => if p x then some 0 else (findIndex p xs).map (· + 1)

/-- Mutating the object returned by Array.prototype.find: rewrite the first
element satisfying `p`, leave everything else alone. -/
def updateFirst (p : α → Bool) (f : α → α) : List α → List α
  | [] => []
  | x :: xs => if p x then f x :: xs else x :: updateFirst p f xs

/-- String.prototype.includes for a non-empty needle. -/
def strIncludes (s sub : String) : Bool := Nat.blt 1 (s.splitOn sub).length

/-- String.prototype.trim: strip leading and trailing whitespace. -/
def jsTrim (s : String) : String :=
  String.mk (((s.data.dropWhile Char.isWhitespace).reverse.dropWhile Char.isWhitespace).reverse)

/-! ## Route handler responses -/

/-- The observable HTTP responses of the modelled routes. -/
inductive Resp where
  /-- res.status(404) with a json/plain body. -/
  | notFound (body : String)
  /-- res.status(400).send(reason). -/
  | badRequest (body : String)
  /-- res.json of `ok true`; `autoFlowMsg` is "" for routes that send none. -/
  | okJson (autoFlowMsg : String)
  /-- res.redirect(loc). -/
  | redirect (loc : String)
deriving Repr, DecidableEq

/-- pushEvent (src/src/index.mjs lines 76-85): unshift an audit event.  The
generated id and the timestamp are passed in. -/
def pushEvent (d : Data) (evId candidateId ty message actor now : String) : Data :=
  { d with events :=
      { id := evId, candidateId := candidateId, type := ty, message := message,
        actor := if actor = "" then "系统" else actor, createdAt := now } :: d.events }

/-! ## Review submission (src/src/index.mjs lines 1528-1618) -/

/-- The JSON body of POST /api/candidates/:id/reviews after the inline
coercions `Number(req.body.round || 1)`, `String(req.body.status || "待一面")`,
`String(req.body.rating || "")`, etc.; `dimensions` is the star map object. -/
structure ReviewReq where
  round : Int
  status : String
  rating : String
  pros : String
  cons : String
  focusNext : String
  interviewer : String
  dimensions : List (String × Nat)
  note : String
deriving Repr, DecidableEq

/-- RATING_SCORES (line 1570) scaled by two so that the half point of B+
stays integral: S=5, A=4, B+=3.5, B=3, B-=2, C=1 become 10 8 7 6 4 2, and
the comparison `ratingScore >= 3.5` becomes `ratingScore2 >= 7`.  A rating
outside the table (or "") scores 0 (`RATING_SCORES[rating] || 0`). -/
def ratingScore2 (r : String) : Nat :=
  if r = "S" then 10 else if r = "A" then 8 else if r = "B+" then 7
  else if r = "B" then 6 else if r = "B-" then 4 else if r = "C" then 2 else 0

/-- passStatusMap (line 1581). -/
def passStatusMap (round : Int) : Option String :=
  if round = 1 then some "一面通过" else if round = 2 then some "二面通过"
  else if round = 3 then some "三面通过" else if round = 4 then some "四面通过"
  else if round = 5 then some "五面通过" else none

/-- The dimension-score summary appended to the review audit event
(line 1600): names of the dimensions with a truthy star value. -/
def dimSummary (dims : List (String × Nat)) : String :=
  if dims.isEmpty then ""
  else "\n维度评分：" ++ String.intercalate "，"
    (REVIEW_DIMENSIONS.filterMap fun dm =>
      match dims.lookup dm.1 with
      | some n => if n ≠ 0 then some (dm.2 ++ "=" ++ toString n ++ "★") else none
      | none => none)

/-- 智能状态流转 (index.mjs lines 1568-1597): the pair of the candidate's
next status and the advisory message.  A rating of B- or C keeps the
submitted per-round status and advises elimination; a score of at least 3.5
advances to the round's pass stage, and to 待发offer after round 5; any
other rating keeps the submitted status with no message. -/
def reviewAutoFlow (round : Int) (status rating : String) : String × String :=
  if rating = "B-" ∨ rating = "C" then
    (status, "评级为" ++ rating ++ "，建议标记该候选人为淘汰状态。")
  else if 7 ≤ ratingScore2 rating then
    match passStatusMap round with
    | some passStatus =>
      if STATUS_SET passStatus then
        if 5 ≤ round then
          ("待发offer",
           "第" ++ toString round ++ "轮面试通过（评级" ++ rating ++ "），已自动流转到「待发Offer」。")
        else (passStatus, "评级" ++ rating ++ "，已自动流转到「" ++ passStatus ++ "」。")
      else (status, "")
    | none => (status, "")
  else (status, "")

/-- 面评后自动更新跟进动作 (index.mjs lines 1606-1615). -/
def reviewFollowUpdate (f : Follow) (newStatus : String) (round : Int)
    (followAt : String) : Follow :=
  if newStatus = "淘汰" then
    { f with
      nextAction := "已结束",
      note := (if f.note = "" then "" else f.note ++ "\n")
              ++ "第" ++ toString round ++ "轮面试淘汰" }
  else if strIncludes newStatus "通过" then
    { f with nextAction := "安排下一轮面试", followAt := followAt }
  else if newStatus = "待发offer" then
    { f with nextAction := "准备Offer" }
  else f

/-- POST /api/candidates/:id/reviews (src/src/index.mjs lines 1528-1618).
`userName` is req.user?.name (or "" when absent); `now` is nowIso();
`followAt` is the date two days out computed for the follow-up; `rvId`,
`evId1`, `evId2` are the ids rid would generate for the new review record
and the (up to two) audit events.  The trailing saveData call persists the
returned dataset; persistence is modelled separately. -/
def postReview (d : Data) (cid : String) (req : ReviewReq)
    (userName now followAt rvId evId1 evId2 : String) : Resp × Data :=
  match d.candidates.find? (fun x => x.id == cid) with
  | none => (Resp.notFound "not_found", d)
  | some c =>
    let round := req.round
    let status := req.status
    let rating := req.rating
    let interviewer := req.interviewer
    -- if (!pros && !cons && !focusNext && note) pros = note
    let pros := if req.pros = "" ∧ req.cons = "" ∧ req.focusNext = "" ∧ req.note ≠ ""
                then req.note else req.pros
    if !(INTERVIEW_ROUNDS.contains round) then (Resp.badRequest "invalid_round", d)
    else if rating != "" && !(INTERVIEW_RATING.contains rating) then
      (Resp.badRequest "invalid_rating", d)
    else if !(STATUS_SET status) then (Resp.badRequest "invalid_status", d)
    else
      -- one review per (candidate, round, interviewer): replace else push
      let idx? := findIndex
        (fun x => x.candidateId == c.id && x.round == round && x.interviewer == interviewer)
        d.interviews
      let item : Interview :=
        { id := match idx? with
                | some i => ((d.interviews.get? i).map (fun x => x.id)).getD rvId
                | none => rvId,
          candidateId := c.id, round := round, status := status, rating := rating,
          interviewer := interviewer, dimensions := req.dimensions,
          pros := pros, cons := req.cons, focusNext := req.focusNext,
          note := match idx? with
                  | some i => ((d.interviews.get? i).map (fun x => x.note)).getD ""
                  | none => "",
          createdAt := now }
      let interviews1 := match idx? with
        | some i => d.interviews.set i item
        | none => d.interviews ++ [item]
      let old := if c.status = "" then "待筛选" else c.status
      let flow := reviewAutoFlow round status rating
      let newStatus := flow.1
      let autoFlowMsg := flow.2
      let c2 := { c with
        status := newStatus, updatedAt := now,
        follow := reviewFollowUpdate c.follow newStatus round followAt }
      let d1 := { d with
        candidates := updateFirst (fun x => x.id == cid) (fun _ => c2) d.candidates,
        interviews := interviews1 }
      let d2 := pushEvent d1 evId1 c.id "面评"
        ("第" ++ toString round ++ "轮（" ++ interviewer ++ "）：进度=" ++ status
          ++ "，评级=" ++ (if rating = "" then "-" else rating) ++ dimSummary req.dimensions
          ++ "\nPros：" ++ (if pros = "" then "-" else pros)
          ++ "\nCons：" ++ (if req.cons = "" then "-" else req.cons))
        userName now
      let d3 := if old ≠ newStatus then
          pushEvent d2 evId2 c.id "状态同步" ("因面评更新，状态：" ++ old ++ " -> " ++ newStatus) "系统" now
        else d2
      (Resp.okJson autoFlowMsg, d3)

/-! ## Manual status set (src/src/index.mjs lines 1346-1368) -/

/-- POST /api/candidates/:id/status.  `statusBody` is
String(req.body.status || "待筛选") before the enum check. -/
def postStatus (d : Data) (cid : String) (statusBody : String)
    (userName now evId : String) : Resp × Data :=
  match d.candidates.find? (fun x => x.id == cid) with
  | none => (Resp.notFound "not_found", d)
  | some c =>
    let old := if c.status = "" then "待筛选" else c.status
    let newStatus := if STATUS_SET statusBody then statusBody else "待筛选"
    let c2 := { c with status := newStatus, updatedAt := now }
    let d1 := { d with candidates := updateFirst (fun x => x.id == cid) (fun _ => c2) d.candidates }
    let d2 := pushEvent d1 evId c.id "状态流转" ("状态：" ++ old ++ " -> " ++ newStatus) userName now
    (Resp.okJson "", d2)

/-! ## Candidate creation (src/src/index.mjs lines 529-578) -/

/-- The form body of POST /candidates/new before trimming. -/
structure NewCandReq where
  name : String
  phone : String
  email : String
  jobId : String
  source : String
  note : String
  tags : List String
deriving Repr, DecidableEq

/-- Outcome of a route that may or may not reach its saveData call. -/
structure RouteResult where
  resp : Resp
  data : Data
  didSave : Bool
deriving Repr

/-- POST /candidates/new.  `cId`/`evId` are the generated ids; `hasFile`
says whether a resume file was attached and `uploadEffect` stands for the
dataset mutation performed by saveResumeSupabaseOrLocal (lines 568-574),
which only runs on the success path after the record is created. -/
def postCandidatesNew (d : Data) (req : NewCandReq) (userName now cId evId : String)
    (hasFile : Bool) (uploadEffect : Data → Data) : RouteResult :=
  let name := jsTrim req.name
  let phone := jsTrim req.phone
  let email := jsTrim req.email
  let jobId := jsTrim req.jobId
  let source := jsTrim req.source
  let note := jsTrim req.note
  let tags := req.tags.filter (fun t => t ≠ "")
  if name = "" then { resp := Resp.redirect "/candidates/new", data := d, didSave := false }
  else if jobId = "" then { resp := Resp.redirect "/candidates/new", data := d, didSave := false }
  else
    let job := d.jobs.find? (fun x => x.id == jobId)
    let c : Candidate :=
      { id := cId, name := name, phone := phone, email := email, jobId := jobId,
        jobTitle := match job with | some j => j.title | none => jobId,
        source := source, note := note, tags := tags, status := "待筛选",
        follow := { nextAction := "待联系", followAt := "", note := "" },
        createdAt := now, updatedAt := now }
    let d1 := { d with candidates := c :: d.candidates }
    let d2 := if c.source ≠ "" ∧ !(d1.sources.contains c.source)
              then { d1 with sources := d1.sources ++ [c.source] } else d1
    let d3 := pushEvent d2 evId c.id "创建"
      ("创建候选人：" ++ (if c.name = "" then "-" else c.name)
        ++ "（岗位：" ++ (if c.jobTitle = "" then "-" else c.jobTitle) ++ "）") userName now
    let d4 := if hasFile then uploadEffect d3 else d3
    { resp := Resp.redirect ("/candidates/" ++ c.id), data := d4, didSave := true }

/-! ## Candidate deletion (src/src/index.mjs lines 1042-1057) -/

/-- POST /candidates/:id/delete: splice the candidate out and filter every
related collection; deleteCandidateRelated only mirrors the same deletions
to the remote store. -/
def deleteCandidateRoute (d : Data) (cid : String) : RouteResult :=
  match findIndex (fun x => x.id == cid) d.candidates with
  | some i =>
    let d1 := { d with
      candidates := d.candidates.eraseIdx i,
      interviews := d.interviews.filter (fun x => x.candidateId != cid),
      interviewSchedules := d.interviewSchedules.filter (fun x => x.candidateId != cid),
      resumeFiles := d.resumeFiles.filter (fun x => x.candidateId != cid),
      events := d.events.filter (fun x => x.candidateId != cid),
      offers := d.offers.filter (fun x => x.candidateId != cid) }
    { resp := Resp.redirect "/candidates", data := d1, didSave := true }
  | none => { resp := Resp.redirect "/candidates", data := d, didSave := false }

/-! ## Supabase row shapes (src/src/db.mjs lines 56-296)

Nullable snake_case columns are Option fields; `tags` abstracts the
JSON-string column as the list it encodes (a well-formed encode/decode
round-trip; candFromRow turns an unparsable or non-array value into []). -/

structure CandRow where
  id : String
  name : Option String
  phone : Option String
  email : Option String
  job_id : Option String
  job_title : Option String
  source : Option String
  note : Option String
  status : Option String
  tags : Option (List String)
  follow_next_action : Option String
  follow_at : Option String
  follow_note : Option String
  created_at : Option String
  updated_at : Option String
deriving Repr, DecidableEq

def candToRow (c : Candidate) : CandRow :=
  { id := c.id, name := some c.name, phone := some c.phone, email := some c.email,
    job_id := some c.jobId, job_title := some c.jobTitle, source := some c.source,
    note := some c.note, status := some c.status,
    -- `c.tags ? JSON.stringify(c.tags) : null`: an array is always truthy
    tags := some c.tags,
    follow_next_action := some c.follow.nextAction, follow_at := some c.follow.followAt,
    follow_note := some c.follow.note,
    created_at := some c.createdAt, updated_at := some c.updatedAt }

/-- candFromRow (db.mjs lines 77-99); `nowS` stands for the nowIso() calls
used when timestamps are null. -/
def candFromRow (nowS : String) (r : CandRow) : Candidate :=
  { id := r.id, name := r.name.getD "", phone := r.phone.getD "",
    email := r.email.getD "", jobId := r.job_id.getD "", jobTitle := r.job_title.getD "",
    source := r.source.getD "", note := r.note.getD "",
    status := r.status.getD "待筛选",
    tags := r.tags.getD [],
    follow := { nextAction := r.follow_next_action.getD "待联系",
                followAt := r.follow_at.getD "",
                note := r.follow_note.getD "" },
    createdAt := r.created_at.getD nowS,
    updatedAt := r.updated_at.getD (r.created_at.getD nowS) }

structure JobRow where
  id : String
  title : Option String
  department : Option String
  location : Option String
  owner : Option String
  headcount : Option Int
  level : Option String
  state : Option String
  category : Option String
  jd : Option String
  created_at : Option String
  updated_at : Option String
deriving Repr, DecidableEq

def jobToRow (j : Job) : JobRow :=
  { id := j.id, title := some j.title, department := some j.department,
    location := some j.location, owner := some j.owner, headcount := j.headcount,
    level := some j.level, state := some j.state, category := some j.category,
    jd := some j.jd, created_at := some j.createdAt, updated_at := some j.updatedAt }

def jobFromRow (nowS : String) (r : JobRow) : Job :=
  { id := r.id, title := r.title.getD "", department := r.department.getD "",
    location := r.location.getD "", owner := r.owner.getD "", headcount := r.headcount,
    level := r.level.getD "", state := r.state.getD "open", category := r.category.getD "",
    jd := r.jd.getD "", createdAt := r.created_at.getD nowS,
    updatedAt := r.updated_at.getD (r.created_at.getD nowS) }

structure InterviewRow where
  id : String
  candidate_id : Option String
  round : Option Int
  status : Option String
  rating : Option String
  pros : Option String
  cons : Option String
  focus_next : Option String
  note : Option String
  created_at : Option String
deriving Repr, DecidableEq

/-- interviewToRow drops `interviewer` and `dimensions`. -/
def interviewToRow (x : Interview) : InterviewRow :=
  { id := x.id, candidate_id := some x.candidateId, round := some x.round,
    status := some x.status, rating := some x.rating, pros := some x.pros,
    cons := some x.cons, focus_next := some x.focusNext, note := some x.note,
    created_at := some x.createdAt }

def interviewFromRow (nowS : String) (r : InterviewRow) : Interview :=
  { id := r.id, candidateId := r.candidate_id.getD "", round := r.round.getD 1,
    status := r.status.getD "", rating := r.rating.getD "",
    interviewer := "", dimensions := [],
    pros := r.pros.getD "", cons := r.cons.getD "", focusNext := r.focus_next.getD "",
    note := r.note.getD "", createdAt := r.created_at.getD nowS }

structure ScheduleRow where
  id : String
  candidate_id : Option String
  round : Option Int
  scheduled_at : Option String
  interviewers : Option String
  link : Option String
  location : Option String
  created_at : Option String
  updated_at : Option String
deriving Repr, DecidableEq

def scheduleToRow (x : Schedule) : ScheduleRow :=
  { id := x.id, candidate_id := some x.candidateId, round := some x.round,
    scheduled_at := some x.scheduledAt, interviewers := some x.interviewers,
    link := some x.link, location := some x.location,
    created_at := some x.createdAt, updated_at := some x.updatedAt }

def scheduleFromRow (nowS : String) (r : ScheduleRow) : Schedule :=
  { id := r.id, candidateId := r.candidate_id.getD "", round := r.round.getD 1,
    scheduledAt := r.scheduled_at.getD "", interviewers := r.interviewers.getD "",
    link := r.link.getD "", location := r.location.getD "",
    createdAt := r.created_at.getD nowS,
    updatedAt := r.updated_at.getD (r.created_at.getD nowS) }

structure ResumeRow where
  id : String
  candidate_id : Option String
  filename : Option String
  original_name : Option String
  content_type : Option String
  size : Option Nat
  uploaded_at : Option String
  url : Option String
  storage : Option String
  bucket : Option String
deriving Repr, DecidableEq

def resumeToRow (x : ResumeFile) : ResumeRow :=
  { id := x.id, candidate_id := some x.candidateId, filename := some x.filename,
    original_name := some x.originalName, content_type := some x.contentType,
    size := some x.size, uploaded_at := some x.uploadedAt, url := some x.url,
    storage := some x.storage, bucket := some x.bucket }

def resumeFromRow (nowS : String) (r : ResumeRow) : ResumeFile :=
  { id := r.id, candidateId := r.candidate_id.getD "", filename := r.filename.getD "",
    originalName := r.original_name.getD "", contentType := r.content_type.getD "",
    size := r.size.getD 0, uploadedAt := r.uploaded_at.getD nowS,
    url := r.url.getD "", storage := r.storage.getD "local", bucket := r.bucket.getD "" }

structure EventRow where
  id : String
  candidate_id : Option String
  type : Option String
  message : Option String
  actor : Option String
  created_at : Option String
deriving Repr, DecidableEq

def eventToRow (e : Event) : EventRow :=
  { id := e.id, candidate_id := some e.candidateId, type := some e.type,
    message := some e.message, actor := some e.actor, created_at := some e.createdAt }

def eventFromRow (nowS : String) (r : EventRow) : Event :=
  { id := r.id, candidateId := r.candidate_id.getD "", type := r.type.getD "",
    message := r.message.getD "", actor := r.actor.getD "系统",
    createdAt := r.created_at.getD nowS }

structure OfferRow where
  id : String
  candidate_id : Option String
  job_id : Option String
  salary : Option String
  salary_note : Option String
  start_date : Option String
  offer_status : Option String
  note : Option String
  created_at : Option String
  updated_at : Option String
deriving Repr, DecidableEq

def offerToRow (o : Offer) : OfferRow :=
  { id := o.id, candidate_id := some o.candidateId, job_id := some o.jobId,
    salary := some o.salary, salary_note := some o.salaryNote,
    start_date := some o.startDate, offer_status := some o.offerStatus,
    note := some o.note, created_at := some o.createdAt, updated_at := some o.updatedAt }

def offerFromRow (nowS : String) (r : OfferRow) : Offer :=
  { id := r.id, candidateId := r.candidate_id.getD "", jobId := r.job_id.getD "",
    salary := r.salary.getD "", salaryNote := r.salary_note.getD "",
    startDate := r.start_date.getD "", offerStatus := r.offer_status.getD "待发放",
    note := r.note.getD "", createdAt := r.created_at.getD nowS,
    updatedAt := r.updated_at.getD (r.created_at.getD nowS) }

structure UserRow where
  id : String
  open_id : Option String
  union_id : Option String
  name : Option String
  avatar : Option String
  role : Option String
  department : Option String
  job_title : Option String
  provider : Option String
  created_at : Option String
deriving Repr, DecidableEq

def userToRow (u : User) : UserRow :=
  { id := u.id, open_id := some u.openId, union_id := some u.unionId,
    name := some u.name, avatar := some u.avatar,
    -- `u.role ?? "interviewer"`: the in-memory field is always present here
    role := some u.role,
    department := some u.department, job_title := some u.jobTitle,
    provider := some u.provider, created_at := some u.createdAt }

def userFromRow (nowS : String) (r : UserRow) : User :=
  { id := r.id, openId := r.open_id.getD "", unionId := r.union_id.getD "",
    name := r.name.getD "", avatar := r.avatar.getD "", role := r.role.getD "interviewer",
    department := r.department.getD "", jobTitle := r.job_title.getD "",
    provider := r.provider.getD "feishu", createdAt := r.created_at.getD nowS }

/-! ## Remote upsert and merge-on-load (db.mjs lines 304-440) -/

/-- A primary-key upsert of one row (onConflict id): update the existing
row in place, else insert. -/
def upsertOne (idOf : α → String) (tbl : List α) (r : α) : List α :=
  match findIndex (fun t => idOf t == idOf r) tbl with
  | some i => tbl.set i r
  | none => tbl ++ [r]

/-- Upsert a batch of rows (the successful branch of upsertWithRetry). -/
def upsertBy (idOf : α → String) (tbl rows : List α) : List α :=
  rows.foldl (upsertOne idOf) tbl

/-- The merge-a-local-collection loops of loadData (db.mjs lines 387-433):
append every local record whose id was not among the remote ids (the id
set is computed once, before the loop). -/
def mergeById (idOf : α → String) (sb loc : List α) : List α :=
  loc.foldl
    (fun acc l => if (sb.map idOf).contains (idOf l) then acc else acc ++ [l]) sb

/-- Loop body of the resumeFiles merge (db.mjs lines 375-385): append an
unknown local record; when both sides have the id and only the local copy
has a url, swap the local record in at the remote record's position (the
id→record map is built from the remote list before the loop, and indexOf
compares against the remote record object). -/
def mergeResumeStep (sb acc : List ResumeFile) (lr : ResumeFile) : List ResumeFile :=
  match sb.find? (fun r => r.id == lr.id) with
  | none => acc ++ [lr]
  | some sbr =>
    if lr.url ≠ "" ∧ sbr.url = "" then
      match findIndex (fun r => r == sbr) acc with
      | some i => acc.set i lr
      | none => acc
    else acc

/-- The resumeFiles merge (db.mjs lines 375-385). -/
def mergeResumes (sb loc : List ResumeFile) : List ResumeFile :=
  loc.foldl (mergeResumeStep sb) sb

/-- `Array.from(new Set([...]))`: first-occurrence dedup. -/
def dedupFirst (l : List String) : List String :=
  l.foldl (fun acc x => if acc.contains x then acc else acc ++ [x]) []

/-- The two persistence backends: the parsed local data.json (none when
absent) and the remote tables. -/
structure RemoteTables where
  jobs : List JobRow
  candidates : List CandRow
  interviews : List InterviewRow
  interview_schedules : List ScheduleRow
  resume_files : List ResumeRow
  events : List EventRow
  offers : List OfferRow
  users : List UserRow
deriving Repr, DecidableEq

structure World where
  localFile : Option RawData
  remote : RemoteTables
deriving Repr, DecidableEq

/-- Deployment mode flags (env checks in db.mjs lines 6-7 and supabase.mjs). -/
structure Mode where
  supabaseEnabled : Bool
  isServerless : Bool
deriving Repr, DecidableEq

/-- saveData (db.mjs lines 442-492), state effect on the success path:
write the shaped dataset to data.json (skipped on serverless), then upsert
every collection to the remote tables; offers/users are only upserted when
non-empty.  The dataset handed in by every route is already shaped, so
`ensureDataShape(d)` is `d` itself (see ensureDataShape_toRaw). -/
def saveDataW (m : Mode) (d : Data) (w : World) : World :=
  let shaped := d
  let w1 := if m.isServerless then w else { w with localFile := some shaped.toRaw }
  if !m.supabaseEnabled then w1
  else
    { w1 with remote :=
      { jobs := upsertBy (fun r => r.id) w.remote.jobs (shaped.jobs.map jobToRow),
        candidates := upsertBy (fun r => r.id) w.remote.candidates (shaped.candidates.map candToRow),
        interviews := upsertBy (fun r => r.id) w.remote.interviews (shaped.interviews.map interviewToRow),
        interview_schedules := upsertBy (fun r => r.id) w.remote.interview_schedules
          (shaped.interviewSchedules.map scheduleToRow),
        resume_files := upsertBy (fun r => r.id) w.remote.resume_files
          (shaped.resumeFiles.map resumeToRow),
        events := upsertBy (fun r => r.id) w.remote.events (shaped.events.map eventToRow),
        offers := if shaped.offers.isEmpty then w.remote.offers
          else upsertBy (fun r => r.id) w.remote.offers (shaped.offers.map offerToRow),
        users := if shaped.users.isEmpty then w.remote.users
          else upsertBy (fun r => r.id) w.remote.users (shaped.users.map userToRow) } }

/-- loadData (db.mjs lines 323-440) on the success path.  Without a remote
backend it is loadDataLocal.  With one, every table is fetched and
converted; on serverless only sources/tags are enriched from the rows; on
a durable host the locally persisted records are merged in by id. -/
def loadDataW (m : Mode) (nowS : String) (w : World) : Data :=
  if !m.supabaseEnabled then loadDataLocal m.isServerless w.localFile
  else
    let d0 := ensureDataShape
      { jobs := some (w.remote.jobs.map (jobFromRow nowS)),
        candidates := some (w.remote.candidates.map (candFromRow nowS)),
        sources := none,
        interviews := some (w.remote.interviews.map (interviewFromRow nowS)),
        interviewSchedules := some (w.remote.interview_schedules.map (scheduleFromRow nowS)),
        resumeFiles := some (w.remote.resume_files.map (resumeFromRow nowS)),
        events := some (w.remote.events.map (eventFromRow nowS)),
        offers := some (w.remote.offers.map (offerFromRow nowS)),
        tags := none,
        users := some (w.remote.users.map (userFromRow nowS)) }
    if m.isServerless then
      { d0 with
        sources := dedupFirst (d0.sources ++ (d0.candidates.map (fun c => c.source)).filter (fun s => s ≠ "")),
        tags := dedupFirst (d0.tags ++ (d0.candidates.flatMap (fun c => c.tags)).filter (fun t => t ≠ "")) }
    else
      let loc := loadDataLocal false w.localFile
      { d0 with
        sources := dedupFirst (loc.sources ++ (d0.candidates.map (fun c => c.source)).filter (fun s => s ≠ "")),
        tags := dedupFirst (loc.tags ++ (d0.candidates.flatMap (fun c => c.tags)).filter (fun t => t ≠ "")),
        resumeFiles := mergeResumes d0.resumeFiles loc.resumeFiles,
        offers := mergeById (fun o => o.id) d0.offers loc.offers,
        events := mergeById (fun e => e.id) d0.events loc.events,
        interviews := mergeById (fun x => x.id) d0.interviews loc.interviews,
        interviewSchedules := mergeById (fun x => x.id) d0.interviewSchedules loc.interviewSchedules,
        candidates := mergeById (fun c => c.id) d0.candidates loc.candidates,
        users := mergeById (fun u => u.id) d0.users loc.users }

/-! ## saveData control flow under failures (db.mjs lines 304-320, 442-492)

The trace model records, in order, which persistence operations the call
attempts; the failure environment decides which of them fail.  Every
failure is caught inside saveData, so the function's result is always a
plain trace — an Except value would have to escape for a persistence
failure to surface to a caller. -/

structure SaveEnv where
  supabaseEnabled : Bool
  isServerless : Bool
  localWriteFails : Bool
  fullUpsertFails : String → Bool
  slimUpsertFails : String → Bool

inductive SaveAction where
  /-- fs.writeFileSync of data.json. -/
  | writeLocal
  /-- an upsert request against a remote table. -/
  | upsertRemote (table : String)
deriving Repr, DecidableEq

/-- upsertWithRetry (db.mjs lines 304-320): nothing is attempted on an
empty batch; a rejected full-column upsert is retried with the reduced
columns when minimalKeys were given; a failing retry (or a failure with no
minimalKeys) throws. -/
def upsertWithRetryRun (env : SaveEnv) (table : String)
    (rowsEmpty hasMinimalKeys : Bool) : Except String Unit × List SaveAction :=
  if rowsEmpty then (Except.ok (), [])
  else if env.fullUpsertFails table then
    if hasMinimalKeys then
      if env.slimUpsertFails table then
        (Except.error "upsert_failed", [SaveAction.upsertRemote table, SaveAction.upsertRemote table])
      else (Except.ok (), [SaveAction.upsertRemote table, SaveAction.upsertRemote table])
    else (Except.error "upsert_failed", [SaveAction.upsertRemote table])
  else (Except.ok (), [SaveAction.upsertRemote table])

/-- The Promise.all batch of the six always-present collections
(db.mjs lines 456-474), in source order. -/
def saveDataSixRuns (env : SaveEnv) (d : Data) : List (Except String Unit × List SaveAction) :=
  [upsertWithRetryRun env "jobs" d.jobs.isEmpty true,
   upsertWithRetryRun env "candidates" d.candidates.isEmpty true,
   upsertWithRetryRun env "interviews" d.interviews.isEmpty true,
   upsertWithRetryRun env "interview_schedules" d.interviewSchedules.isEmpty true,
   upsertWithRetryRun env "resume_files" d.resumeFiles.isEmpty true,
   upsertWithRetryRun env "events" d.events.isEmpty true]

/-- saveData (db.mjs lines 442-492) as a trace: the local write is attempted
first inside its own try/catch; then the six always-present collections are
upserted in one Promise.all (each attempt happens even if a sibling fails);
offers and users follow, each in its own swallowing try/catch, only when the
six-way batch succeeded (a rejected Promise.all skips to the outer catch).
Every catch logs and swallows, so the result is Except.ok on every path. -/
def saveDataRun (env : SaveEnv) (d : Data) : Except String (List SaveAction) :=
  let localActs := if env.isServerless then [] else [SaveAction.writeLocal]
  -- try { saveDataLocal(shaped) } catch (e) { warn }: a local failure is swallowed
  if !env.supabaseEnabled then Except.ok localActs
  else
    let six := saveDataSixRuns env d
    let sixActs := (six.map Prod.snd).join
    if !(six.all fun r => r.1.isOk) then
      Except.ok (localActs ++ sixActs) -- outer catch: warn and return
    else
      let ro := if !d.offers.isEmpty then upsertWithRetryRun env "offers" d.offers.isEmpty true
                else (Except.ok (), [])
      let ru := if !d.users.isEmpty then upsertWithRetryRun env "users" d.users.isEmpty true
                else (Except.ok (), [])
      -- both inner try/catch blocks swallow their failures
      Except.ok (localActs ++ (sixActs ++ (ro.2 ++ ru.2)))

/-! ## Supporting lemmas -/

theorem ensureDataShape_toRaw (d : Data) : ensureDataShape d.toRaw = d := rfl

theorem pushEvent_candidates (d : Data) (a b c e f g : String) :
    (pushEvent d a b c e f g).candidates = d.candidates := rfl

theorem findIndex_eq_none_iff (p : α → Bool) (l : List α) :
    findIndex p l = none ↔ ∀ a ∈ l, p a = false := by
  induction l with
  | nil => simp [findIndex]
  | cons x xs ih =>
    by_cases hx : p x
    · simp [findIndex, hx]
    · simp [findIndex, hx, ih]

theorem findIndex_some (p : α → Bool) (l : List α) (i : Nat)
    (h : findIndex p l = some i) : ∃ a, l.get? i = some a ∧ p a = true := by
  induction l generalizing i with
  | nil => simp [findIndex] at h
  | cons x xs ih =>
    by_cases hx : p x
    · simp [findIndex, hx] at h
      exact h ▸ ⟨x, rfl, hx⟩
    · simp [findIndex, hx] at h
      obtain ⟨j, hj, rfl⟩ := h
      obtain ⟨a, ha, hpa⟩ := ih j hj
      exact ⟨a, by simpa using ha, hpa⟩

theorem find?_updateFirst (p : α → Bool) (f : α → α) (l : List α) (c : α)
    (h : l.find? p = some c) (hf : p (f c) = true) :
    (updateFirst p f l).find? p = some (f c) := by
  induction l with
  | nil => simp at h
  | cons x xs ih =>
    by_cases hx : p x
    · rw [List.find?_cons_of_pos _ hx] at h
      injection h with h
      subst h
      simp [updateFirst, hx, List.find?_cons_of_pos _ hf]
    · rw [List.find?_cons_of_neg _ hx] at h
      simp [updateFirst, hx, List.find?_cons_of_neg _ hx, ih h]

theorem map_set_eq_of_get? (f : α → β) (l : List α) (i : Nat) (a b : α)
    (ha : l.get? i = some a) (hfb : f b = f a) : (l.set i b).map f = l.map f := by
  induction l generalizing i with
  | nil => simp at ha
  | cons x xs ih =>
    cases i with
    | zero =>
      simp only [List.get?] at ha
      injection ha with ha
      subst ha
      simp [List.set, hfb]
    | succ j =>
      simp only [List.get?] at ha
      simp [List.set, ih j ha]

theorem filter_filter_ne (f : α → String) (k : String) (l : List α) :
    (l.filter (fun x => f x != k)).filter (fun x => f x == k) = [] := by
  induction l with
  | nil => rfl
  | cons x xs ih =>
    by_cases hx : f x = k
    · simp [List.filter_cons, hx, ih]
    · simp [List.filter_cons, hx, ih]

theorem filter_eraseIdx_eq_nil (f : α → String) (k : String) (l : List α) (i : Nat)
    (hnd : (l.map f).Nodup) (h : findIndex (fun x => f x == k) l = some i) :
    (l.eraseIdx i).filter (fun x => f x == k) = [] := by
  induction l generalizing i with
  | nil => simp [findIndex] at h
  | cons x xs ih =>
    simp only [List.map_cons, List.nodup_cons] at hnd
    by_cases hx : (f x == k) = true
    · simp only [findIndex, hx, if_pos] at h
      injection h with h
      subst h
      have hfx : f x = k := by simpa using hx
      simp only [List.eraseIdx]
      rw [List.filter_eq_nil_iff]
      intro a ha
      have : f a ∈ xs.map f := List.mem_map_of_mem f ha
      intro hak
      have hak' : f a = k := by simpa using hak
      exact hnd.1 (by rw [hfx, ← hak']; exact this)
    · simp only [findIndex, hx, if_neg, Bool.not_eq_true] at h
      rw [Option.map_eq_some'] at h
      obtain ⟨j, hj, rfl⟩ := h
      simp only [List.eraseIdx, List.filter_cons, hx]
      exact ih j hnd.2 hj

theorem mem_map_upsertOne (idOf : α → String) (tbl : List α) (r : α) (x : String) :
    x ∈ (upsertOne idOf tbl r).map idOf ↔ x ∈ tbl.map idOf ∨ x = idOf r := by
  unfold upsertOne
  cases hfi : findIndex (fun t => idOf t == idOf r) tbl with
  | none => simp [List.map_append, Or.comm]
  | some i =>
    obtain ⟨a, ha, hpa⟩ := findIndex_some _ _ _ hfi
    have hida : idOf a = idOf r := by simpa using hpa
    rw [map_set_eq_of_get? idOf tbl i a r ha hida.symm]
    constructor
    · exact Or.inl
    · rintro (hx | rfl)
      · exact hx
      · rw [← hida]
        exact List.mem_map_of_mem idOf (List.get?_mem ha)

theorem mem_map_upsertBy (idOf : α → String) (tbl rows : List α) (x : String) :
    x ∈ (upsertBy idOf tbl rows).map idOf ↔ x ∈ tbl.map idOf ∨ x ∈ rows.map idOf := by
  induction rows generalizing tbl with
  | nil => simp [upsertBy]
  | cons r rs ih =>
    show x ∈ (upsertBy idOf (upsertOne idOf tbl r) rs).map idOf ↔ _
    rw [ih, mem_map_upsertOne]
    simp only [List.map_cons, List.mem_cons]
    tauto

theorem mem_map_mergeById (idOf : α → String) (sb loc : List α) (x : String) :
    x ∈ (mergeById idOf sb loc).map idOf ↔ x ∈ sb.map idOf ∨ x ∈ loc.map idOf := by
  have key : ∀ (loc acc : List α), (∀ y ∈ sb.map idOf, y ∈ acc.map idOf) →
      (x ∈ (loc.foldl
          (fun acc l => if (sb.map idOf).contains (idOf l) then acc else acc ++ [l]) acc).map idOf
        ↔ x ∈ acc.map idOf ∨ x ∈ loc.map idOf) := by
    intro loc
    induction loc with
    | nil => intro acc _; simp
    | cons l ls ih =>
      intro acc hacc
      simp only [List.foldl_cons]
      by_cases hc : (sb.map idOf).contains (idOf l) = true
      · rw [if_pos hc, ih acc hacc]
        have hmem : idOf l ∈ acc.map idOf := hacc _ (List.elem_iff.mp hc)
        simp only [List.map_cons, List.mem_cons]
        constructor
        · tauto
        · rintro (h | rfl | h) <;> tauto
      · rw [if_neg hc, ih (acc ++ [l]) (fun y hy => by
          simp only [List.map_append, List.mem_append]
          exact Or.inl (hacc y hy))]
        simp only [List.map_append, List.mem_append, List.map_cons, List.mem_cons,
          List.map_nil, List.mem_singleton]
        tauto
  exact (key loc sb fun y hy => hy).trans (by tauto)

theorem mergeResumeStep_ids (sb acc : List ResumeFile) (lr : ResumeFile)
    (hacc : ∀ y ∈ sb.map (fun r => r.id), y ∈ acc.map (fun r => r.id)) :
    ∀ y, y ∈ (mergeResumeStep sb acc lr).map (fun r => r.id) ↔
      y ∈ acc.map (fun r => r.id) ∨ y = lr.id := by
  intro y
  cases hfind : sb.find? (fun r => r.id == lr.id) with
  | none =>
    simp only [mergeResumeStep, hfind, List.map_append, List.mem_append, List.map_cons,
      List.map_nil, List.mem_singleton]
  | some sbr =>
    have hsbr_id : sbr.id = lr.id := by simpa using List.find?_some hfind
    have hlr_in_acc : lr.id ∈ acc.map (fun r => r.id) := by
      refine hacc _ ?_
      rw [← hsbr_id]
      exact List.mem_map_of_mem _ (List.mem_of_find?_eq_some hfind)
    have htail : y ∈ acc.map (fun r => r.id) ↔ y ∈ acc.map (fun r => r.id) ∨ y = lr.id := by
      constructor
      · exact Or.inl
      · rintro (h | rfl)
        · exact h
        · exact hlr_in_acc
    by_cases hurl : lr.url ≠ "" ∧ sbr.url = ""
    · cases hfi : findIndex (fun r => r == sbr) acc with
      | none => simpa only [mergeResumeStep, hfind, if_pos hurl, hfi] using htail
      | some i =>
        obtain ⟨a, ha, hpa⟩ := findIndex_some _ _ _ hfi
        have haeq : a = sbr := by simpa using hpa
        subst haeq
        have hmap : (acc.set i lr).map (fun r => r.id) = acc.map (fun r => r.id) :=
          map_set_eq_of_get? _ acc i a lr ha (by rw [hsbr_id])
        simp only [mergeResumeStep, hfind, if_pos hurl, hfi, hmap]
        exact htail
    · simpa only [mergeResumeStep, hfind, if_neg hurl] using htail

theorem mergeResumeStep_sup (sb acc : List ResumeFile) (lr : ResumeFile)
    (hacc : ∀ y ∈ sb.map (fun r => r.id), y ∈ acc.map (fun r => r.id)) :
    ∀ y ∈ sb.map (fun r => r.id), y ∈ (mergeResumeStep sb acc lr).map (fun r => r.id) := by
  intro y hy
  rw [mergeResumeStep_ids sb acc lr hacc]
  exact Or.inl (hacc y hy)

theorem mem_map_mergeResumes (sb loc : List ResumeFile) (x : String) :
    x ∈ (mergeResumes sb loc).map (fun r => r.id) ↔
      x ∈ sb.map (fun r => r.id) ∨ x ∈ loc.map (fun r => r.id) := by
  have key : ∀ (loc acc : List ResumeFile),
      (∀ y ∈ sb.map (fun r => r.id), y ∈ acc.map (fun r => r.id)) →
      (x ∈ (loc.foldl (mergeResumeStep sb) acc).map (fun r => r.id)
        ↔ x ∈ acc.map (fun r => r.id) ∨ x ∈ loc.map (fun r => r.id)) := by
    intro loc
    induction loc with
    | nil => intro acc _; simp
    | cons lr ls ih =>
      intro acc hacc
      simp only [List.foldl_cons]
      rw [ih _ (mergeResumeStep_sup sb acc lr hacc)]
      rw [mergeResumeStep_ids sb acc lr hacc x]
      simp only [List.map_cons, List.mem_cons]
      tauto
  exact (key loc sb fun y hy => hy).trans (by tauto)

/-! ## Concrete sample data used by the witnesses -/

def cEx : Candidate :=
  { id := "c1", name := "张三", phone := "", email := "", jobId := "j1",
    jobTitle := "后端工程师", source := "内推", note := "", status := "待筛选",
    tags := [], follow := { nextAction := "待联系", followAt := "", note := "" },
    createdAt := "t0", updatedAt := "t0" }

def dEx : Data :=
  { jobs := [], candidates := [cEx], sources := [], interviews := [],
    interviewSchedules := [], resumeFiles := [], events := [], offers := [],
    tags := [], users := [] }

/-! ## The claims -/

theorem ite_pushEvent_candidates (P : Prop) [Decidable P] (d : Data) (a b c e f g : String) :
    (if P then pushEvent d a b c e f g else d).candidates = d.candidates := by
  split <;> rfl

theorem pushEvent_interviews (d : Data) (a b c e f g : String) :
    (pushEvent d a b c e f g).interviews = d.interviews := rfl

theorem ite_pushEvent_interviews (P : Prop) [Decidable P] (d : Data) (a b c e f g : String) :
    (if P then pushEvent d a b c e f g else d).interviews = d.interviews := by
  split <;> rfl

/-- C1: for every candidate present in the store, a review submission with
round 5 and rating "S" (and any submitted per-round status that passes the
enum check) succeeds and leaves the candidate's status at the
awaiting-offer stage 待发offer. -/
theorem review_round5_ratingS_sets_awaiting_offer
    (d : Data) (cid : String) (c : Candidate)
    (status pros cons focusNext interviewer note : String)
    (dims : List (String × Nat))
    (userName now followAt rvId evId1 evId2 : String)
    (hc : d.candidates.find? (fun x => x.id == cid) = some c)
    (hstatus : STATUS_SET status = true) :
    (postReview d cid ⟨5, status, "S", pros, cons, focusNext, interviewer, dims, note⟩
        userName now followAt rvId evId1 evId2).1
      = Resp.okJson "第5轮面试通过（评级S），已自动流转到「待发Offer」。" ∧
    (((postReview d cid ⟨5, status, "S", pros, cons, focusNext, interviewer, dims, note⟩
        userName now followAt rvId evId1 evId2).2.candidates.find?
          (fun x => x.id == cid)).map (fun x => x.status)) = some "待发offer" := by
  have hcid : (c.id == cid) = true := by simpa using List.find?_some hc
  have hflow : reviewAutoFlow 5 status "S"
      = ("待发offer", "第5轮面试通过（评级S），已自动流转到「待发Offer」。") := rfl
  simp only [postReview, hc,
    show (INTERVIEW_ROUNDS.contains (5 : Int)) = true by decide,
    show (("S" != "") && !(INTERVIEW_RATING.contains "S")) = false by decide,
    hstatus, hflow, Bool.not_true, Bool.false_eq_true, if_false, ite_false, ite_true]
  refine ⟨trivial, ?_⟩
  rw [ite_pushEvent_candidates, pushEvent_candidates,
    find?_updateFirst (fun x => x.id == cid) _ d.candidates c hc hcid]
  rfl

/-- C1 witness: the theorem applied at a concrete store. -/
theorem review_round5_ratingS_sets_awaiting_offer_witness :
    (postReview dEx "c1" ⟨5, "待五面", "S", "p", "", "", "hr", [], ""⟩
        "hr" "t1" "t2" "rv1" "e1" "e2").1
      = Resp.okJson "第5轮面试通过（评级S），已自动流转到「待发Offer」。" ∧
    (((postReview dEx "c1" ⟨5, "待五面", "S", "p", "", "", "hr", [], ""⟩
        "hr" "t1" "t2" "rv1" "e1" "e2").2.candidates.find?
          (fun x => x.id == "c1")).map (fun x => x.status)) = some "待发offer" :=
  review_round5_ratingS_sets_awaiting_offer dEx "c1" cEx "待五面" "p" "" "" "hr" ""
    [] "hr" "t1" "t2" "rv1" "e1" "e2" (by decide) (by decide)

/-- C2 counterexample: a review submission with rating "C" on round 1 that
passes every validation (it carries the submitted status 待发offer, which
the route accepts) succeeds and leaves the candidate at 待发offer — a stage
strictly past round 1's in-review stage 待一面.  The low rating therefore
does not bound the resulting stage by the current round. -/
theorem review_ratingC_can_land_past_in_review :
    (postReview dEx "c1" ⟨1, "待发offer", "C", "p", "", "", "hr", [], ""⟩
        "hr" "t1" "t2" "rv1" "e1" "e2").1
      = Resp.okJson "评级为C，建议标记该候选人为淘汰状态。" ∧
    (((postReview dEx "c1" ⟨1, "待发offer", "C", "p", "", "", "hr", [], ""⟩
        "hr" "t1" "t2" "rv1" "e1" "e2").2.candidates.find?
          (fun x => x.id == "c1")).map (fun x => x.status)) = some "待发offer" ∧
    stageIdx "待一面" < stageIdx "待发offer" := by
  refine ⟨rfl, rfl, by decide⟩

/-- C2 (amended): with rating "C" (any valid round), the handler applies no
automatic advancement of its own — the candidate's status after the request
is exactly the status string supplied in the submission — and the response
carries the advisory rejection message. -/
theorem review_ratingC_keeps_submitted_status
    (d : Data) (cid : String) (c : Candidate) (round : Int)
    (status pros cons focusNext interviewer note : String)
    (dims : List (String × Nat))
    (userName now followAt rvId evId1 evId2 : String)
    (hc : d.candidates.find? (fun x => x.id == cid) = some c)
    (hround : INTERVIEW_ROUNDS.contains round = true)
    (hstatus : STATUS_SET status = true) :
    (postReview d cid ⟨round, status, "C", pros, cons, focusNext, interviewer, dims, note⟩
        userName now followAt rvId evId1 evId2).1
      = Resp.okJson "评级为C，建议标记该候选人为淘汰状态。" ∧
    (((postReview d cid ⟨round, status, "C", pros, cons, focusNext, interviewer, dims, note⟩
        userName now followAt rvId evId1 evId2).2.candidates.find?
          (fun x => x.id == cid)).map (fun x => x.status)) = some status := by
  have hcid : (c.id == cid) = true := by simpa using List.find?_some hc
  have hflow : reviewAutoFlow round status "C"
      = (status, "评级为C，建议标记该候选人为淘汰状态。") := rfl
  simp only [postReview, hc, hround,
    show (("C" != "") && !(INTERVIEW_RATING.contains "C")) = false by decide,
    hstatus, hflow, Bool.not_true, Bool.false_eq_true, if_false, ite_false, ite_true]
  refine ⟨trivial, ?_⟩
  rw [ite_pushEvent_candidates, pushEvent_candidates,
    find?_updateFirst (fun x => x.id == cid) _ d.candidates c hc hcid]
  rfl

/-- C2 amended witness: the theorem applied at a concrete store. -/
theorem review_ratingC_keeps_submitted_status_witness :
    (postReview dEx "c1" ⟨2, "待二面", "C", "p", "", "", "hr", [], ""⟩
        "hr" "t1" "t2" "rv1" "e1" "e2").1
      = Resp.okJson "评级为C，建议标记该候选人为淘汰状态。" ∧
    (((postReview dEx "c1" ⟨2, "待二面", "C", "p", "", "", "hr", [], ""⟩
        "hr" "t1" "t2" "rv1" "e1" "e2").2.candidates.find?
          (fun x => x.id == "c1")).map (fun x => x.status)) = some "待二面" :=
  review_ratingC_keeps_submitted_status dEx "c1" cEx 2 "待二面" "p" "" "" "hr" ""
    [] "hr" "t1" "t2" "rv1" "e1" "e2" (by decide) (by decide) (by decide)

/-- C8: on an existing candidate, a set-status request with an unrecognized
status value is not rejected: it succeeds and silently coerces the status
to the initial stage 待筛选. -/
theorem set_status_invalid_coerced_to_default
    (d : Data) (cid : String) (c : Candidate)
    (statusBody userName now evId : String)
    (hc : d.candidates.find? (fun x => x.id == cid) = some c)
    (hinv : STATUS_SET statusBody = false) :
    (postStatus d cid statusBody userName now evId).1 = Resp.okJson "" ∧
    (((postStatus d cid statusBody userName now evId).2.candidates.find?
        (fun x => x.id == cid)).map (fun x => x.status)) = some "待筛选" := by
  have hcid : (c.id == cid) = true := by simpa using List.find?_some hc
  simp only [postStatus, hc, hinv, Bool.false_eq_true, if_false, ite_false]
  refine ⟨trivial, ?_⟩
  rw [pushEvent_candidates,
    find?_updateFirst (fun x => x.id == cid) _ d.candidates c hc hcid]
  rfl

/-- C8 witness: the theorem applied at a concrete store. -/
theorem set_status_invalid_coerced_to_default_witness :
    (postStatus dEx "c1" "不存在的状态" "hr" "t1" "e1").1 = Resp.okJson "" ∧
    (((postStatus dEx "c1" "不存在的状态" "hr" "t1" "e1").2.candidates.find?
        (fun x => x.id == "c1")).map (fun x => x.status)) = some "待筛选" :=
  set_status_invalid_coerced_to_default dEx "c1" cEx "不存在的状态" "hr" "t1" "e1"
    (by decide) (by decide)

/-- C4: a create-candidate request whose trimmed name or trimmed job
selection is empty is redirected back to the form, creates no record, and
never reaches the save. -/
theorem create_candidate_missing_name_or_job_rejected
    (d : Data) (req : NewCandReq) (userName now cId evId : String)
    (hasFile : Bool) (uploadEffect : Data → Data)
    (h : jsTrim req.name = "" ∨ jsTrim req.jobId = "") :
    (postCandidatesNew d req userName now cId evId hasFile uploadEffect).resp
      = Resp.redirect "/candidates/new" ∧
    (postCandidatesNew d req userName now cId evId hasFile uploadEffect).data = d ∧
    (postCandidatesNew d req userName now cId evId hasFile uploadEffect).didSave = false := by
  by_cases hn : jsTrim req.name = ""
  · simp [postCandidatesNew, hn]
  · rcases h with h | h
    · exact absurd h hn
    · simp [postCandidatesNew, hn, h]

/-- C4 witness: the theorem applied at a concrete request with a blank name. -/
theorem create_candidate_missing_name_or_job_rejected_witness :
    (postCandidatesNew dEx ⟨"  ", "135", "a@b.c", "j1", "内推", "", []⟩
        "hr" "t1" "cNew" "e1" false id).resp = Resp.redirect "/candidates/new" ∧
    (postCandidatesNew dEx ⟨"  ", "135", "a@b.c", "j1", "内推", "", []⟩
        "hr" "t1" "cNew" "e1" false id).data = dEx ∧
    (postCandidatesNew dEx ⟨"  ", "135", "a@b.c", "j1", "内推", "", []⟩
        "hr" "t1" "cNew" "e1" false id).didSave = false :=
  create_candidate_missing_name_or_job_rejected dEx ⟨"  ", "135", "a@b.c", "j1", "内推", "", []⟩
    "hr" "t1" "cNew" "e1" false id (Or.inl (by decide))

/-- C7: review-submission validation.  An unknown candidate id yields 404;
with the candidate present, a round outside 1-5 yields 400 invalid_round, a
non-empty rating outside the rating set yields 400 invalid_rating, and a
status outside the stage set yields 400 invalid_status — each with the
dataset returned unchanged. -/
theorem review_validation_behaviour
    (d : Data) (cid : String) (req : ReviewReq)
    (userName now followAt rvId evId1 evId2 : String) :
    (d.candidates.find? (fun x => x.id == cid) = none →
      postReview d cid req userName now followAt rvId evId1 evId2
        = (Resp.notFound "not_found", d)) ∧
    (∀ c, d.candidates.find? (fun x => x.id == cid) = some c →
      ((INTERVIEW_ROUNDS.contains req.round = false →
        postReview d cid req userName now followAt rvId evId1 evId2
          = (Resp.badRequest "invalid_round", d)) ∧
      (INTERVIEW_ROUNDS.contains req.round = true → req.rating ≠ "" →
        INTERVIEW_RATING.contains req.rating = false →
        postReview d cid req userName now followAt rvId evId1 evId2
          = (Resp.badRequest "invalid_rating", d)) ∧
      (INTERVIEW_ROUNDS.contains req.round = true →
        (req.rating != "" && !(INTERVIEW_RATING.contains req.rating)) = false →
        STATUS_SET req.status = false →
        postReview d cid req userName now followAt rvId evId1 evId2
          = (Resp.badRequest "invalid_status", d)))) := by
  refine ⟨fun hn => ?_, fun c hc => ⟨fun hr => ?_, fun hr hne hrt => ?_, fun hr hrt hst => ?_⟩⟩
  · simp only [postReview, hn]
  · simp only [postReview, hc, hr, Bool.not_false, if_true, ite_true]
  · have hb : (req.rating != "" && !(INTERVIEW_RATING.contains req.rating)) = true := by
      rw [hrt]
      simp [bne_iff_ne, hne]
    simp only [postReview, hc, hr, hb, Bool.not_true, Bool.false_eq_true, if_false,
      ite_false, if_true, ite_true]
  · simp only [postReview, hc, hr, hrt, hst, Bool.not_true, Bool.not_false,
      Bool.false_eq_true, if_false, ite_false, if_true, ite_true]

/-- C7 witness: all four error cases at a concrete store. -/
theorem review_validation_behaviour_witness :
    postReview dEx "nope" ⟨1, "待一面", "", "", "", "", "hr", [], ""⟩
      "hr" "t1" "t2" "rv1" "e1" "e2" = (Resp.notFound "not_found", dEx) ∧
    postReview dEx "c1" ⟨9, "待一面", "", "", "", "", "hr", [], ""⟩
      "hr" "t1" "t2" "rv1" "e1" "e2" = (Resp.badRequest "invalid_round", dEx) ∧
    postReview dEx "c1" ⟨1, "待一面", "Z", "", "", "", "hr", [], ""⟩
      "hr" "t1" "t2" "rv1" "e1" "e2" = (Resp.badRequest "invalid_rating", dEx) ∧
    postReview dEx "c1" ⟨1, "不是状态", "", "", "", "", "hr", [], ""⟩
      "hr" "t1" "t2" "rv1" "e1" "e2" = (Resp.badRequest "invalid_status", dEx) :=
  ⟨(review_validation_behaviour dEx "nope" ⟨1, "待一面", "", "", "", "", "hr", [], ""⟩
      "hr" "t1" "t2" "rv1" "e1" "e2").1 (by decide),
   ((review_validation_behaviour dEx "c1" ⟨9, "待一面", "", "", "", "", "hr", [], ""⟩
      "hr" "t1" "t2" "rv1" "e1" "e2").2 cEx (by decide)).1 (by decide),
   ((review_validation_behaviour dEx "c1" ⟨1, "待一面", "Z", "", "", "", "hr", [], ""⟩
      "hr" "t1" "t2" "rv1" "e1" "e2").2 cEx (by decide)).2.1 (by decide) (by decide) (by decide),
   ((review_validation_behaviour dEx "c1" ⟨1, "不是状态", "", "", "", "", "hr", [], ""⟩
      "hr" "t1" "t2" "rv1" "e1" "e2").2 cEx (by decide)).2.2 (by decide) (by decide) (by decide)⟩

/-- The identity of a review record for deduplication purposes. -/
def tripleOf (x : Interview) : String × Int × String :=
  (x.candidateId, x.round, x.interviewer)

/-- Boolean pairwise distinctness. -/
def allDistinct [BEq α] : List α → Bool
  | [] => true
  | x :: xs => !(xs.contains x) && allDistinct xs

theorem allDistinct_iff_nodup [BEq α] [LawfulBEq α] (l : List α) :
    allDistinct l = true ↔ l.Nodup := by
  induction l with
  | nil => simp [allDistinct]
  | cons x xs ih =>
    simp [allDistinct, List.nodup_cons, ih, List.elem_iff, Bool.and_eq_true, and_comm]

theorem triple_pred_iff (a : Interview) (s : String) (r : Int) (iv : String) :
    (a.candidateId == s && a.round == r && a.interviewer == iv) = true ↔
      tripleOf a = (s, r, iv) := by
  simp [tripleOf, Prod.ext_iff, Bool.and_eq_true, beq_iff_eq, and_assoc]

/-- C10: the review route keeps at most one review per (candidate, round,
interviewer).  On a successful submission: pairwise-distinct triples are
preserved; when a record with the submission's triple already exists at
index i, the new collection has the same length and keeps, at i, the old
record's id with the submission's triple (in-place replacement); when no
record has the triple, exactly the freshly-created record (with the fresh
id) is appended. -/
theorem review_one_record_per_triple
    (d : Data) (cid : String) (c : Candidate) (req : ReviewReq)
    (userName now followAt rvId evId1 evId2 : String)
    (hc : d.candidates.find? (fun x => x.id == cid) = some c)
    (hround : INTERVIEW_ROUNDS.contains req.round = true)
    (hrating : (req.rating != "" && !(INTERVIEW_RATING.contains req.rating)) = false)
    (hstatus : STATUS_SET req.status = true) :
    (allDistinct (d.interviews.map tripleOf) = true →
      allDistinct ((postReview d cid req userName now followAt rvId evId1 evId2).2.interviews.map
        tripleOf) = true) ∧
    (∀ i, findIndex
        (fun x => x.candidateId == c.id && x.round == req.round && x.interviewer == req.interviewer)
        d.interviews = some i →
      (postReview d cid req userName now followAt rvId evId1 evId2).2.interviews.length
          = d.interviews.length ∧
      ((postReview d cid req userName now followAt rvId evId1 evId2).2.interviews.get? i).map
          (fun x => x.id) = (d.interviews.get? i).map (fun x => x.id) ∧
      ((postReview d cid req userName now followAt rvId evId1 evId2).2.interviews.get? i).map
          tripleOf = some (c.id, req.round, req.interviewer)) ∧
    (findIndex
        (fun x => x.candidateId == c.id && x.round == req.round && x.interviewer == req.interviewer)
        d.interviews = none →
      (postReview d cid req userName now followAt rvId evId1 evId2).2.interviews.length
          = d.interviews.length + 1 ∧
      ((postReview d cid req userName now followAt rvId evId1 evId2).2.interviews.get?
          d.interviews.length).map (fun x => (x.id, tripleOf x))
        = some (rvId, (c.id, req.round, req.interviewer))) := by
  refine ⟨?_, ?_, ?_⟩
  all_goals
    simp only [postReview, hc, hround, hrating, Bool.not_true, Bool.false_eq_true,
      if_false, ite_false, hstatus, if_true, ite_true, ite_pushEvent_interviews,
      pushEvent_interviews]
  · -- distinctness is preserved
    intro hdst
    cases hfi : findIndex
        (fun x => x.candidateId == c.id && x.round == req.round && x.interviewer == req.interviewer)
        d.interviews with
    | some i =>
      obtain ⟨a, ha, hpa⟩ := findIndex_some _ _ _ hfi
      have hta : tripleOf a = (c.id, req.round, req.interviewer) :=
        (triple_pred_iff a c.id req.round req.interviewer).mp hpa
      simp only [hfi]
      rw [map_set_eq_of_get? tripleOf d.interviews i a _ ha (by rw [hta]; simp [tripleOf])]
      exact hdst
    | none =>
      simp only [hfi, List.map_append]
      rw [allDistinct_iff_nodup] at hdst ⊢
      simp only [List.map_cons, List.map_nil]
      rw [List.nodup_append]
      refine ⟨hdst, List.nodup_singleton _, ?_⟩
      intro t ht
      simp only [List.mem_singleton]
      intro hts
      subst hts
      obtain ⟨a, hal, hta⟩ := List.mem_map.mp ht
      have hpa : (a.candidateId == c.id && a.round == req.round && a.interviewer == req.interviewer)
          = false := (findIndex_eq_none_iff _ _).mp hfi a hal
      have htp : (a.candidateId == c.id && a.round == req.round && a.interviewer == req.interviewer)
          = true := by
        rw [triple_pred_iff a c.id req.round req.interviewer]
        simpa [tripleOf] using hta
      rw [htp] at hpa
      exact absurd hpa (by decide)
  · -- replacement in place, reusing the id
    intro i hfi
    obtain ⟨a, ha, hpa⟩ := findIndex_some _ _ _ hfi
    have hlt : i < d.interviews.length := by
      rcases List.get?_eq_some.mp ha with ⟨h, _⟩
      exact h
    simp only [hfi, ha, List.length_set, Option.map_some, Option.getD_some,
      List.get?_set_eq_of_lt _ hlt]
    simp [tripleOf]
  · -- fresh triple: append the new record
    intro hfi
    simp only [hfi, List.length_append, List.get?_concat_length, Option.map_some,
      List.map_nil, List.length_cons, List.length_nil]
    simp [tripleOf]

/-- C10 witness: submitting against an empty review collection appends the
fresh record; the theorem is applied at a concrete store. -/
theorem review_one_record_per_triple_witness :
    (postReview dEx "c1" ⟨1, "待一面", "A", "p", "", "", "hr", [], ""⟩
        "hr" "t1" "t2" "rv1" "e1" "e2").2.interviews.length = dEx.interviews.length + 1 ∧
    ((postReview dEx "c1" ⟨1, "待一面", "A", "p", "", "", "hr", [], ""⟩
        "hr" "t1" "t2" "rv1" "e1" "e2").2.interviews.get? dEx.interviews.length).map
      (fun x => (x.id, tripleOf x)) = some ("rv1", (cEx.id, 1, "hr")) :=
  (review_one_record_per_triple dEx "c1" cEx ⟨1, "待一面", "A", "p", "", "", "hr", [], ""⟩
    "hr" "t1" "t2" "rv1" "e1" "e2" (by decide) (by decide) (by decide) (by decide)).2.2
    (by decide)

/-- C5: deleting a present candidate (ids being unique) removes the
candidate and every interview review, schedule, resume file and event bound
to its id. -/
theorem delete_candidate_cascades
    (d : Data) (cid : String)
    (hmem : cid ∈ d.candidates.map (fun c => c.id))
    (hnd : (d.candidates.map (fun c => c.id)).Nodup) :
    (deleteCandidateRoute d cid).data.candidates.filter (fun x => x.id == cid) = [] ∧
    (deleteCandidateRoute d cid).data.interviews.filter (fun x => x.candidateId == cid) = [] ∧
    (deleteCandidateRoute d cid).data.interviewSchedules.filter
      (fun x => x.candidateId == cid) = [] ∧
    (deleteCandidateRoute d cid).data.resumeFiles.filter (fun x => x.candidateId == cid) = [] ∧
    (deleteCandidateRoute d cid).data.events.filter (fun x => x.candidateId == cid) = [] := by
  cases hfi : findIndex (fun x => x.id == cid) d.candidates with
  | none =>
    exfalso
    obtain ⟨a, hal, haid⟩ := List.mem_map.mp hmem
    have hfalse := (findIndex_eq_none_iff _ _).mp hfi a hal
    rw [haid] at hfalse
    simp at hfalse
  | some i =>
    simp only [deleteCandidateRoute, hfi]
    exact ⟨filter_eraseIdx_eq_nil (fun c => c.id) cid d.candidates i hnd hfi,
      filter_filter_ne (fun x => x.candidateId) cid d.interviews,
      filter_filter_ne (fun x => x.candidateId) cid d.interviewSchedules,
      filter_filter_ne (fun x => x.candidateId) cid d.resumeFiles,
      filter_filter_ne (fun x => x.candidateId) cid d.events⟩

/-- A store with one candidate and one related record in every collection,
used to witness the cascading delete. -/
def ivEx : Interview :=
  { id := "rv1", candidateId := "c1", round := 1, status := "待一面", rating := "A",
    interviewer := "hr", dimensions := [], pros := "p", cons := "", focusNext := "",
    note := "", createdAt := "t0" }

def scEx : Schedule :=
  { id := "sc1", candidateId := "c1", round := 1, scheduledAt := "t0",
    interviewers := "hr", link := "", location := "", createdAt := "t0",
    updatedAt := "t0" }

def rfEx : ResumeFile :=
  { id := "rf1", candidateId := "c1", filename := "f.pdf", originalName := "f.pdf",
    contentType := "application/pdf", size := 3, uploadedAt := "t0", url := "u",
    storage := "local", bucket := "" }

def evEx : Event :=
  { id := "ev1", candidateId := "c1", type := "创建", message := "m", actor := "hr",
    createdAt := "t0" }

def dEx2 : Data :=
  { jobs := [], candidates := [cEx], sources := [], interviews := [ivEx],
    interviewSchedules := [scEx], resumeFiles := [rfEx], events := [evEx],
    offers := [], tags := [], users := [] }

/-- C5 witness: the theorem applied at a concrete store. -/
theorem delete_candidate_cascades_witness :
    (deleteCandidateRoute dEx2 "c1").data.candidates.filter (fun x => x.id == "c1") = [] ∧
    (deleteCandidateRoute dEx2 "c1").data.interviews.filter
      (fun x => x.candidateId == "c1") = [] ∧
    (deleteCandidateRoute dEx2 "c1").data.interviewSchedules.filter
      (fun x => x.candidateId == "c1") = [] ∧
    (deleteCandidateRoute dEx2 "c1").data.resumeFiles.filter
      (fun x => x.candidateId == "c1") = [] ∧
    (deleteCandidateRoute dEx2 "c1").data.events.filter (fun x => x.candidateId == "c1") = [] :=
  delete_candidate_cascades dEx2 "c1" (by decide) (by decide)

/-- A local data.json whose only candidate carries a status string outside
the enumerated stage set. -/
def rawBogus : RawData :=
  { RawData.empty with candidates := some [{ cEx with status := "乱写状态" }] }

/-- C3 counterexample: loading a local file whose candidate record carries
an arbitrary status string returns that record with the status preserved
verbatim — the value is NOT defaulted to 待筛选 and lies outside the
enumerated stage set. -/
theorem load_local_keeps_unrecognized_status :
    ((loadDataLocal false (some rawBogus)).candidates.map (fun c => c.status))
      = ["乱写状态"] ∧
    STATUS_SET "乱写状态" = false :=
  ⟨rfl, by decide⟩

/-- C3 (amended): load performs no status validation.  candFromRow defaults
only a NULL status column to 待筛选 and otherwise passes the stored string
through unchanged, and loadDataLocal returns the stored candidate records
verbatim; unrecognized non-null statuses are not coerced into the
enumerated stage set. -/
theorem load_status_passthrough :
    (∀ (nowS : String) (r : CandRow), (candFromRow nowS r).status = r.status.getD "待筛选") ∧
    (∀ file : RawData, (loadDataLocal false (some file)).candidates = file.candidates.getD []) :=
  ⟨fun _ _ => rfl, fun _ => rfl⟩

theorem upsertWithRetryRun_acts (env : SaveEnv) (t : String) (re hm : Bool) :
    ∀ a ∈ (upsertWithRetryRun env t re hm).2, a = SaveAction.upsertRemote t := by
  intro a ha
  unfold upsertWithRetryRun at ha
  by_cases h1 : re = true
  · simp [h1] at ha
  · simp only [h1, Bool.false_eq_true, if_false, ite_false] at ha
    by_cases h2 : env.fullUpsertFails t = true
    · simp only [h2, if_true, ite_true] at ha
      by_cases h3 : hm = true
      · by_cases h4 : env.slimUpsertFails t = true
        · simp only [h3, h4, if_true, ite_true] at ha
          simp only [List.mem_cons, List.mem_singleton, List.not_mem_nil, or_false] at ha
          rcases ha with rfl | rfl <;> rfl
        · simp only [h3, h4, Bool.false_eq_true, if_true, ite_true, if_false, ite_false] at ha
          simp only [List.mem_cons, List.mem_singleton, List.not_mem_nil, or_false] at ha
          rcases ha with rfl | rfl <;> rfl
      · simp only [h3, Bool.false_eq_true, if_false, ite_false] at ha
        simp only [List.mem_singleton] at ha
        exact ha
    · simp only [h2, Bool.false_eq_true, if_false, ite_false] at ha
      simp only [List.mem_singleton] at ha
      exact ha

theorem saveDataSixRuns_acts (env : SaveEnv) (d : Data) :
    ∀ a ∈ ((saveDataSixRuns env d).map Prod.snd).join, ∃ t, a = SaveAction.upsertRemote t := by
  intro a ha
  rw [List.mem_join] at ha
  obtain ⟨s, hs, has⟩ := ha
  rw [List.mem_map] at hs
  obtain ⟨r, hr, rfl⟩ := hs
  simp only [saveDataSixRuns, List.mem_cons, List.not_mem_nil, or_false] at hr
  rcases hr with rfl | rfl | rfl | rfl | rfl | rfl <;>
    exact ⟨_, upsertWithRetryRun_acts env _ _ _ a has⟩

theorem ite_upsertWithRetryRun_acts (P : Prop) [Decidable P]
    (env : SaveEnv) (t : String) (re hm : Bool) :
    ∀ a ∈ (if P then upsertWithRetryRun env t re hm
           else ((Except.ok () : Except String Unit), ([] : List SaveAction))).2,
      a = SaveAction.upsertRemote t := by
  split
  · exact upsertWithRetryRun_acts env t re hm
  · simp

/-- C9: for every failure environment (local write failing, any subset of
remote upserts failing, with or without the remote backend), saveData
returns normally — its result is Except.ok, never an error — and its action
trace attempts the local data.json write (on a durable host) strictly
before any remote upsert. -/
theorem saveData_returns_normally_local_write_first (env : SaveEnv) (d : Data) :
    ∃ rest, saveDataRun env d
        = Except.ok ((if env.isServerless then [] else [SaveAction.writeLocal]) ++ rest) ∧
      ∀ a ∈ rest, ∃ t, a = SaveAction.upsertRemote t := by
  by_cases hs : env.supabaseEnabled = true
  · simp only [saveDataRun, hs, Bool.not_true, Bool.false_eq_true, if_false, ite_false]
    by_cases h6 : ((saveDataSixRuns env d).all fun r => r.1.isOk) = true
    · simp only [h6, Bool.not_true, Bool.false_eq_true, if_false, ite_false]
      refine ⟨_, rfl, ?_⟩
      intro a ha
      simp only [List.mem_append] at ha
      rcases ha with h | h | h
      · exact saveDataSixRuns_acts env d a h
      · exact ⟨_, ite_upsertWithRetryRun_acts _ env "offers" _ _ a h⟩
      · exact ⟨_, ite_upsertWithRetryRun_acts _ env "users" _ _ a h⟩
    · have h6f : ((saveDataSixRuns env d).all fun r => r.1.isOk) = false := by
        simpa using h6
      simp only [h6f, Bool.not_false, if_true, ite_true]
      exact ⟨_, rfl, saveDataSixRuns_acts env d⟩
  · simp only [saveDataRun, hs]
    refine ⟨[], ?_, by simp⟩
    simp [show env.supabaseEnabled = false by simpa using hs]

/-! ## Row conversions preserve ids -/

theorem jobToRow_ids (l : List Job) :
    (l.map jobToRow).map (fun r => r.id) = l.map (fun j => j.id) := by
  rw [List.map_map]; rfl

theorem jobFromRow_ids (nowS : String) (l : List JobRow) :
    (l.map (jobFromRow nowS)).map (fun j => j.id) = l.map (fun r => r.id) := by
  rw [List.map_map]; rfl

theorem candToRow_ids (l : List Candidate) :
    (l.map candToRow).map (fun r => r.id) = l.map (fun c => c.id) := by
  rw [List.map_map]; rfl

theorem candFromRow_ids (nowS : String) (l : List CandRow) :
    (l.map (candFromRow nowS)).map (fun c => c.id) = l.map (fun r => r.id) := by
  rw [List.map_map]; rfl

theorem interviewToRow_ids (l : List Interview) :
    (l.map interviewToRow).map (fun r => r.id) = l.map (fun v => v.id) := by
  rw [List.map_map]; rfl

theorem interviewFromRow_ids (nowS : String) (l : List InterviewRow) :
    (l.map (interviewFromRow nowS)).map (fun v => v.id) = l.map (fun r => r.id) := by
  rw [List.map_map]; rfl

theorem scheduleToRow_ids (l : List Schedule) :
    (l.map scheduleToRow).map (fun r => r.id) = l.map (fun s => s.id) := by
  rw [List.map_map]; rfl

theorem scheduleFromRow_ids (nowS : String) (l : List ScheduleRow) :
    (l.map (scheduleFromRow nowS)).map (fun s => s.id) = l.map (fun r => r.id) := by
  rw [List.map_map]; rfl

theorem resumeToRow_ids (l : List ResumeFile) :
    (l.map resumeToRow).map (fun r => r.id) = l.map (fun f => f.id) := by
  rw [List.map_map]; rfl

theorem resumeFromRow_ids (nowS : String) (l : List ResumeRow) :
    (l.map (resumeFromRow nowS)).map (fun f => f.id) = l.map (fun r => r.id) := by
  rw [List.map_map]; rfl

theorem eventToRow_ids (l : List Event) :
    (l.map eventToRow).map (fun r => r.id) = l.map (fun e => e.id) := by
  rw [List.map_map]; rfl

theorem eventFromRow_ids (nowS : String) (l : List EventRow) :
    (l.map (eventFromRow nowS)).map (fun e => e.id) = l.map (fun r => r.id) := by
  rw [List.map_map]; rfl

theorem offerToRow_ids (l : List Offer) :
    (l.map offerToRow).map (fun r => r.id) = l.map (fun o => o.id) := by
  rw [List.map_map]; rfl

theorem offerFromRow_ids (nowS : String) (l : List OfferRow) :
    (l.map (offerFromRow nowS)).map (fun o => o.id) = l.map (fun r => r.id) := by
  rw [List.map_map]; rfl

theorem userToRow_ids (l : List User) :
    (l.map userToRow).map (fun r => r.id) = l.map (fun u => u.id) := by
  rw [List.map_map]; rfl

theorem userFromRow_ids (nowS : String) (l : List UserRow) :
    (l.map (userFromRow nowS)).map (fun u => u.id) = l.map (fun r => r.id) := by
  rw [List.map_map]; rfl

theorem toFinset_eq_of_mem_iff {l1 l2 : List String} (h : ∀ x, x ∈ l1 ↔ x ∈ l2) :
    l1.toFinset = l2.toFinset := by
  ext x
  simp only [List.mem_toFinset]
  exact h x

theorem loadDataLocal_toRaw (d : Data) : loadDataLocal false (some d.toRaw) = d := rfl

/-- Upserting a saved collection over a remote table whose ids were all
among the saved ids, then converting the rows back, yields exactly the
saved id set. -/
theorem upsert_roundtrip_mem {ρ ε : Type} (idR : ρ → String) (idE : ε → String)
    (toR : ε → ρ) (fromR : ρ → ε) (tbl : List ρ) (sav : List ε)
    (hto : ∀ e, idR (toR e) = idE e) (hfrom : ∀ r, idE (fromR r) = idR r)
    (hsub : ∀ x ∈ tbl.map idR, x ∈ sav.map idE) :
    ∀ x, x ∈ ((upsertBy idR tbl (sav.map toR)).map fromR).map idE ↔ x ∈ sav.map idE := by
  intro x
  rw [List.map_map, show (idE ∘ fromR) = idR from funext hfrom, mem_map_upsertBy,
    List.map_map, show (idR ∘ toR) = idE from funext hto]
  constructor
  · rintro (h | h)
    · exact hsub x h
    · exact h
  · exact Or.inr

/-- C6: after saveData, loadData returns, in every collection, exactly the
saved set of entity ids.  The hypotheses state the absence of a concurrent
writer (every id already in the remote tables came from the saved dataset)
and that the deployment has at least one persistence backend (a serverless
host implies the remote store is configured). -/
theorem save_then_load_same_ids
    (m : Mode) (nowS : String) (d : Data) (w : World)
    (hmode : m.isServerless = true → m.supabaseEnabled = true)
    (hJ : ∀ x ∈ w.remote.jobs.map (fun r => r.id), x ∈ d.jobs.map (fun j => j.id))
    (hC : ∀ x ∈ w.remote.candidates.map (fun r => r.id), x ∈ d.candidates.map (fun c => c.id))
    (hI : ∀ x ∈ w.remote.interviews.map (fun r => r.id), x ∈ d.interviews.map (fun v => v.id))
    (hS : ∀ x ∈ w.remote.interview_schedules.map (fun r => r.id),
      x ∈ d.interviewSchedules.map (fun s => s.id))
    (hR : ∀ x ∈ w.remote.resume_files.map (fun r => r.id), x ∈ d.resumeFiles.map (fun f => f.id))
    (hE : ∀ x ∈ w.remote.events.map (fun r => r.id), x ∈ d.events.map (fun e => e.id))
    (hO : ∀ x ∈ w.remote.offers.map (fun r => r.id), x ∈ d.offers.map (fun o => o.id))
    (hU : ∀ x ∈ w.remote.users.map (fun r => r.id), x ∈ d.users.map (fun u => u.id)) :
    ((loadDataW m nowS (saveDataW m d w)).jobs.map (fun j => j.id)).toFinset
        = (d.jobs.map (fun j => j.id)).toFinset ∧
    ((loadDataW m nowS (saveDataW m d w)).candidates.map (fun c => c.id)).toFinset
        = (d.candidates.map (fun c => c.id)).toFinset ∧
    ((loadDataW m nowS (saveDataW m d w)).interviews.map (fun v => v.id)).toFinset
        = (d.interviews.map (fun v => v.id)).toFinset ∧
    ((loadDataW m nowS (saveDataW m d w)).interviewSchedules.map (fun s => s.id)).toFinset
        = (d.interviewSchedules.map (fun s => s.id)).toFinset ∧
    ((loadDataW m nowS (saveDataW m d w)).resumeFiles.map (fun f => f.id)).toFinset
        = (d.resumeFiles.map (fun f => f.id)).toFinset ∧
    ((loadDataW m nowS (saveDataW m d w)).events.map (fun e => e.id)).toFinset
        = (d.events.map (fun e => e.id)).toFinset ∧
    ((loadDataW m nowS (saveDataW m d w)).offers.map (fun o => o.id)).toFinset
        = (d.offers.map (fun o => o.id)).toFinset ∧
    ((loadDataW m nowS (saveDataW m d w)).users.map (fun u => u.id)).toFinset
        = (d.users.map (fun u => u.id)).toFinset := by
  have hupJ := upsert_roundtrip_mem (fun r : JobRow => r.id) (fun j : Job => j.id)
    jobToRow (jobFromRow nowS) w.remote.jobs d.jobs (fun _ => rfl) (fun _ => rfl) hJ
  have hupC := upsert_roundtrip_mem (fun r : CandRow => r.id) (fun c : Candidate => c.id)
    candToRow (candFromRow nowS) w.remote.candidates d.candidates (fun _ => rfl) (fun _ => rfl) hC
  have hupI := upsert_roundtrip_mem (fun r : InterviewRow => r.id) (fun v : Interview => v.id)
    interviewToRow (interviewFromRow nowS) w.remote.interviews d.interviews
    (fun _ => rfl) (fun _ => rfl) hI
  have hupS := upsert_roundtrip_mem (fun r : ScheduleRow => r.id) (fun s : Schedule => s.id)
    scheduleToRow (scheduleFromRow nowS) w.remote.interview_schedules d.interviewSchedules
    (fun _ => rfl) (fun _ => rfl) hS
  have hupR := upsert_roundtrip_mem (fun r : ResumeRow => r.id) (fun f : ResumeFile => f.id)
    resumeToRow (resumeFromRow nowS) w.remote.resume_files d.resumeFiles
    (fun _ => rfl) (fun _ => rfl) hR
  have hupE := upsert_roundtrip_mem (fun r : EventRow => r.id) (fun e : Event => e.id)
    eventToRow (eventFromRow nowS) w.remote.events d.events (fun _ => rfl) (fun _ => rfl) hE
  have hupO := upsert_roundtrip_mem (fun r : OfferRow => r.id) (fun o : Offer => o.id)
    offerToRow (offerFromRow nowS) w.remote.offers d.offers (fun _ => rfl) (fun _ => rfl) hO
  have hupU := upsert_roundtrip_mem (fun r : UserRow => r.id) (fun u : User => u.id)
    userToRow (userFromRow nowS) w.remote.users d.users (fun _ => rfl) (fun _ => rfl) hU
  by_cases hsb : m.supabaseEnabled = true
  · by_cases hsv : m.isServerless = true
    · -- remote backend on a serverless host: rows only, no local merge
      refine ⟨?_, ?_, ?_, ?_, ?_, ?_, ?_, ?_⟩ <;>
        (apply toFinset_eq_of_mem_iff; intro x;
         simp only [loadDataW, saveDataW, hsb, hsv, Bool.not_true, Bool.false_eq_true,
           if_false, ite_false, if_true, ite_true, ensureDataShape, Option.getD_some])
      · exact hupJ x
      · exact hupC x
      · exact hupI x
      · exact hupS x
      · exact hupR x
      · exact hupE x
      · by_cases ho : d.offers.isEmpty = true
        · have ho' : d.offers = [] := List.isEmpty_iff.mp ho
          simp only [ho, if_true, ite_true, ho', List.map_nil, List.not_mem_nil, iff_false]
          intro hx
          rw [List.map_map] at hx
          exact absurd (hO x (by simpa using hx)) (by simp [ho'])
        · simp only [ho, Bool.false_eq_true, if_false, ite_false]
          exact hupO x
      · by_cases hu : d.users.isEmpty = true
        · have hu' : d.users = [] := List.isEmpty_iff.mp hu
          simp only [hu, if_true, ite_true, hu', List.map_nil, List.not_mem_nil, iff_false]
          intro hx
          rw [List.map_map] at hx
          exact absurd (hU x (by simpa using hx)) (by simp [hu'])
        · simp only [hu, Bool.false_eq_true, if_false, ite_false]
          exact hupU x
    · -- remote backend on a durable host: rows merged with the local copy
      have hsv' : m.isServerless = false := by simpa using hsv
      refine ⟨?_, ?_, ?_, ?_, ?_, ?_, ?_, ?_⟩ <;>
        (apply toFinset_eq_of_mem_iff; intro x;
         simp only [loadDataW, saveDataW, hsb, hsv', Bool.not_true, Bool.not_false,
           Bool.false_eq_true, if_false, ite_false, if_true, ite_true, ensureDataShape,
           Option.getD_some, loadDataLocal_toRaw])
      · exact hupJ x
      · rw [mem_map_mergeById]
        constructor
        · rintro (h | h)
          · exact (hupC x).mp h
          · exact h
        · exact Or.inr
      · rw [mem_map_mergeById]
        constructor
        · rintro (h | h)
          · exact (hupI x).mp h
          · exact h
        · exact Or.inr
      · rw [mem_map_mergeById]
        constructor
        · rintro (h | h)
          · exact (hupS x).mp h
          · exact h
        · exact Or.inr
      · rw [mem_map_mergeResumes]
        constructor
        · rintro (h | h)
          · exact (hupR x).mp h
          · exact h
        · exact Or.inr
      · rw [mem_map_mergeById]
        constructor
        · rintro (h | h)
          · exact (hupE x).mp h
          · exact h
        · exact Or.inr
      · rw [mem_map_mergeById]
        by_cases ho : d.offers.isEmpty = true
        · have ho' : d.offers = [] := List.isEmpty_iff.mp ho
          simp only [ho, if_true, ite_true]
          constructor
          · rintro (h | h)
            · rw [List.map_map] at h
              exact hO x (by simpa using h)
            · exact h
          · exact Or.inr
        · simp only [ho, Bool.false_eq_true, if_false, ite_false]
          constructor
          · rintro (h | h)
            · exact (hupO x).mp h
            · exact h
          · exact Or.inr
      · rw [mem_map_mergeById]
        by_cases hu : d.users.isEmpty = true
        · have hu' : d.users = [] := List.isEmpty_iff.mp hu
          simp only [hu, if_true, ite_true]
          constructor
          · rintro (h | h)
            · rw [List.map_map] at h
              exact hU x (by simpa using h)
            · exact h
          · exact Or.inr
        · simp only [hu, Bool.false_eq_true, if_false, ite_false]
          constructor
          · rintro (h | h)
            · exact (hupU x).mp h
            · exact h
          · exact Or.inr
  · -- no remote backend: plain local file round trip
    have hsb' : m.supabaseEnabled = false := by simpa using hsb
    have hsv' : m.isServerless = false := by
      cases hv : m.isServerless
      · rfl
      · exact absurd (hmode hv) (by simp [hsb'])
    have hload : loadDataW m nowS (saveDataW m d w) = d := by
      simp only [loadDataW, saveDataW, hsb', hsv', Bool.not_false, if_true, ite_true,
        Bool.false_eq_true, if_false, ite_false]
      exact loadDataLocal_toRaw d
    rw [hload]
    exact ⟨rfl, rfl, rfl, rfl, rfl, rfl, rfl, rfl⟩

/-- A deployment with the remote backend configured on a durable host. -/
def mEx : Mode := { supabaseEnabled := true, isServerless := false }

/-- The empty remote tables. -/
def remoteEx : RemoteTables :=
  { jobs := [], candidates := [], interviews := [], interview_schedules := [],
    resume_files := [], events := [], offers := [], users := [] }

/-- A fresh world: no local file yet, empty remote tables. -/
def wEx : World := { localFile := none, remote := remoteEx }

/-- C6 witness: the theorem applied to a concrete dataset and a fresh
world. -/
theorem save_then_load_same_ids_witness :
    ((loadDataW mEx "t9" (saveDataW mEx dEx2 wEx)).jobs.map (fun j => j.id)).toFinset
        = (dEx2.jobs.map (fun j => j.id)).toFinset ∧
    ((loadDataW mEx "t9" (saveDataW mEx dEx2 wEx)).candidates.map (fun c => c.id)).toFinset
        = (dEx2.candidates.map (fun c => c.id)).toFinset ∧
    ((loadDataW mEx "t9" (saveDataW mEx dEx2 wEx)).interviews.map (fun v => v.id)).toFinset
        = (dEx2.interviews.map (fun v => v.id)).toFinset ∧
    ((loadDataW mEx "t9" (saveDataW mEx dEx2 wEx)).interviewSchedules.map
        (fun s => s.id)).toFinset
        = (dEx2.interviewSchedules.map (fun s => s.id)).toFinset ∧
    ((loadDataW mEx "t9" (saveDataW mEx dEx2 wEx)).resumeFiles.map (fun f => f.id)).toFinset
        = (dEx2.resumeFiles.map (fun f => f.id)).toFinset ∧
    ((loadDataW mEx "t9" (saveDataW mEx dEx2 wEx)).events.map (fun e => e.id)).toFinset
        = (dEx2.events.map (fun e => e.id)).toFinset ∧
    ((loadDataW mEx "t9" (saveDataW mEx dEx2 wEx)).offers.map (fun o => o.id)).toFinset
        = (dEx2.offers.map (fun o => o.id)).toFinset ∧
    ((loadDataW mEx "t9" (saveDataW mEx dEx2 wEx)).users.map (fun u => u.id)).toFinset
        = (dEx2.users.map (fun u => u.id)).toFinset :=
  save_then_load_same_ids mEx "t9" dEx2 wEx (by decide) (by simp [wEx, remoteEx])
    (by simp [wEx, remoteEx]) (by simp [wEx, remoteEx]) (by simp [wEx, remoteEx])
    (by simp [wEx, remoteEx]) (by simp [wEx, remoteEx]) (by simp [wEx, remoteEx])
    (by simp [wEx, remoteEx])

end Recruit
